import Mathlib

/-!
Verification development for the Remittance Reader repository.

The heuristic field-extraction engine of the repository
(src/invoice-parser.js, src/script.js, src/unnamed/part_000,
src/unnamed/part_002) is shallowly embedded below.  Strings are modelled
as lists of characters, JavaScript numbers as exact rationals, and the
JavaScript regular expressions used by the extraction cascades are
transcribed into an explicit executable matcher with JavaScript
semantics: leftmost match, ordered alternation, greedy and lazy
quantifiers, capture groups, the case-insensitive flag, and multiline
anchors.
-/

set_option maxRecDepth 100000

namespace RemitSpec

/-- JavaScript whitespace as used by trim and the regex class backslash-s
(ASCII whitespace plus no-break space; the exotic Unicode spaces never
occur in the embedded sources or inputs). -/
def jsSpace (c : Char) : Bool :=
  c == ' ' || c == '\t' || c == '\n' || c == '\r' ||
    c == Char.ofNat 11 || c == Char.ofNat 12 || c == Char.ofNat 160

/-- Decimal digit test, the regex class backslash-d. -/
def jsDigit (c : Char) : Bool :=
  decide (48 ≤ c.toNat) && decide (c.toNat ≤ 57)

/-- Word character test, the regex class backslash-w. -/
def jsWord (c : Char) : Bool :=
  jsDigit c || (decide (97 ≤ c.toNat) && decide (c.toNat ≤ 122)) ||
    (decide (65 ≤ c.toNat) && decide (c.toNat ≤ 90)) || c == '_'

/-- JavaScript line terminators (relevant to the dot class and multiline anchors). -/
def lineTerm (c : Char) : Bool :=
  c == '\n' || c == '\r' || c == Char.ofNat 0x2028 || c == Char.ofNat 0x2029

/-- String.prototype.trim modelled on character lists. -/
def jsTrim (l : List Char) : List Char :=
  ((l.dropWhile jsSpace).reverse.dropWhile jsSpace).reverse

/-- String.prototype.toLowerCase (ASCII, which covers all embedded uses). -/
def listToLower (l : List Char) : List Char :=
  l.map Char.toLower

/-- String.prototype.includes: substring containment. -/
def hasSubstr (hay need : List Char) : Bool :=
  (List.range (hay.length + 1)).any fun i => need.isPrefixOf (hay.drop i)

/-- parseInt on a string of decimal digits (the only shape it is applied to
in the embedded sources: regex captures of digit classes). -/
def digitsToNat (l : List Char) : Nat :=
  l.foldl (fun acc c => acc * 10 + (c.toNat - 48)) 0

/-- String.prototype.padStart with a one-character pad. -/
def padStart (n : Nat) (c : Char) (l : List Char) : List Char :=
  List.replicate (n - l.length) c ++ l

/-- One constituent of a regex character class (literal, range, or a
shorthand class). -/
inductive CItem where
  | ch (c : Char)
  | range (lo hi : Char)
  | digit
  | space
  | word
deriving DecidableEq, Repr

def CItem.test : CItem → Char → Bool
  | .ch a, c => a == c
  | .range lo hi, c => decide (lo ≤ c) && decide (c ≤ hi)
  | .digit, c => jsDigit c
  | .space, c => jsSpace c
  | .word, c => jsWord c

/-- A single-character regex matcher: a literal, the dot, a shorthand
class, or a (possibly negated) bracket class. -/
inductive CC where
  | lit (c : Char)
  | dot
  | digit
  | space
  | cls (neg : Bool) (items : List CItem)
deriving DecidableEq, Repr

/-- Character matching; `ign` is the regex case-insensitive flag, under
which a character also matches via its simple case swap (ASCII
canonicalization, which covers all embedded patterns). -/
def CC.test (ign : Bool) : CC → Char → Bool
  | .lit a, c => a == c || (ign && a.toLower == c.toLower)
  | .dot, c => !lineTerm c
  | .digit, c => jsDigit c
  | .space, c => jsSpace c
  | .cls neg items, c =>
    let hit := items.any fun it => it.test c || (ign && (it.test c.toLower || it.test c.toUpper))
    if neg then !hit else hit

/-- Abstract syntax of the JavaScript regex subset used by the sources:
concatenation, ordered alternation, counted greedy or lazy repetition,
capture groups, and (multiline) anchors. -/
inductive Re where
  | eps
  | cc (m : CC)
  | seq (a b : Re)
  | alt (a b : Re)
  | rep (lo : Nat) (hi : Option Nat) (lazy : Bool) (a : Re)
  | grp (i : Nat) (a : Re)
  | bol
  | eol
deriving Repr

def Re.size : Re → Nat
  | .eps => 1
  | .bol => 1
  | .eol => 1
  | .cc _ => 1
  | .seq a b => a.size + b.size + 1
  | .alt a b => a.size + b.size + 1
  | .rep _ _ _ a => a.size + 1
  | .grp _ a => a.size + 1

/-- Backtracking regex matcher in continuation-passing style, faithful to
JavaScript backtracking order: alternatives left to right, greedy
repetitions prefer longer, lazy ones shorter, and a repetition iteration
that consumes nothing is not repeated.  The captures are an association
list in which the most recent assignment of a group shadows older ones,
mirroring the engine.  Fuel bounds the call depth; `fuelFor` below
always suffices for the embedded patterns, because each nesting level of
the search either decomposes the pattern or consumes input. -/
def mrun (ign : Bool) (input : List Char) (len : Nat) :
    Nat → Re → Nat → List (Nat × Nat × Nat) →
    (Nat → List (Nat × Nat × Nat) → Option (Nat × List (Nat × Nat × Nat))) →
    Option (Nat × List (Nat × Nat × Nat))
  | 0, _, _, _, _ => none
  | fuel + 1, re, pos, caps, k =>
    match re with
    | .eps => k pos caps
    | .cc m =>
      match input.get? pos with
      | some c => if CC.test ign m c then k (pos + 1) caps else none
      | none => none
    | .seq a b =>
      mrun ign input len fuel a pos caps fun p cs => mrun ign input len fuel b p cs k
    | .alt a b =>
      match mrun ign input len fuel a pos caps k with
      | some r => some r
      | none => mrun ign input len fuel b pos caps k
    | .grp i a =>
      mrun ign input len fuel a pos caps fun p cs => k p ((i, pos, p) :: cs)
    | .bol =>
      if pos == 0 || (match input.get? (pos - 1) with | some c => lineTerm c | none => false) then
        k pos caps
      else none
    | .eol =>
      if pos == len || (match input.get? pos with | some c => lineTerm c | none => false) then
        k pos caps
      else none
    | .rep (lo + 1) hi lz a =>
      mrun ign input len fuel a pos caps fun p cs =>
        mrun ign input len fuel (.rep lo (hi.map fun n => n - 1) lz a) p cs k
    | .rep 0 (some 0) _ _ => k pos caps
    | .rep 0 hi lz a =>
      let tail := fun p cs =>
        if p == pos then none
        else mrun ign input len fuel (.rep 0 (hi.map fun n => n - 1) lz a) p cs k
      if lz then
        match k pos caps with
        | some r => some r
        | none => mrun ign input len fuel a pos caps tail
      else
        match mrun ign input len fuel a pos caps tail with
        | some r => some r
        | none => k pos caps

/-- A regex match: start, end, and capture positions. -/
structure MatchRes where
  ms : Nat
  me : Nat
  caps : List (Nat × Nat × Nat)
deriving DecidableEq, Repr

/-- Generous call-depth bound for `mrun` (see its comment). -/
def fuelFor (re : Re) (len : Nat) : Nat :=
  (re.size + 4) * (len + 300) + 1000

/-- Match anchored at a given position (the semantics of test() for a
pattern with a leading start anchor and no multiline flag). -/
def matchAt (ign : Bool) (re : Re) (input : List Char) (pos : Nat) : Option MatchRes :=
  match mrun ign input input.length (fuelFor re input.length) re pos [] (fun p cs => some (p, cs)) with
  | some (e, cs) => some ⟨pos, e, cs⟩
  | none => none

def searchFrom (ign : Bool) (re : Re) (input : List Char) : Nat → Nat → Option MatchRes
  | 0, _ => none
  | f + 1, pos =>
    match matchAt ign re input pos with
    | some r => some r
    | none => if pos < input.length then searchFrom ign re input f (pos + 1) else none

/-- JavaScript String.match with a non-global regex: the leftmost match. -/
def searchIn (ign : Bool) (re : Re) (input : List Char) : Option MatchRes :=
  searchFrom ign re input (input.length + 1) 0

/-- test() for a pattern anchored at the start of the string. -/
def testAtStart (ign : Bool) (re : Re) (input : List Char) : Bool :=
  (matchAt ign re input 0).isSome

/-- The JavaScript global exec loop: all matches in order, resuming from
each match end and advancing one position past an empty match. -/
def gscanFrom (ign : Bool) (re : Re) (input : List Char) : Nat → Nat → List MatchRes
  | 0, _ => []
  | f + 1, pos =>
    match searchFrom ign re input (input.length + 1 - pos) pos with
    | none => []
    | some r => r :: gscanFrom ign re input f (if r.me == r.ms then r.me + 1 else r.me)

def gscan (ign : Bool) (re : Re) (input : List Char) : List MatchRes :=
  gscanFrom ign re input (input.length + 2) 0

def capLookup (i : Nat) : List (Nat × Nat × Nat) → Option (Nat × Nat)
  | [] => none
  | (j, s, e) :: rest => if j == i then some (s, e) else capLookup i rest

/-- The text captured by group `i` (none when the group did not participate). -/
def capStr (input : List Char) (m : MatchRes) (i : Nat) : Option (List Char) :=
  match capLookup i m.caps with
  | some (s, e) => some ((input.drop s).take (e - s))
  | none => none

/-- The text captured by group `i`, defaulting to the empty string. -/
def capStrD (input : List Char) (m : MatchRes) (i : Nat) : List Char :=
  (capStr input m i).getD []

/-- The full text of a match (group 0). -/
def wholeMatch (input : List Char) (m : MatchRes) : List Char :=
  (input.drop m.ms).take (m.me - m.ms)

/-! Pattern-building shorthands used in the transcriptions below. -/

def rcat (l : List Re) : Re := l.foldr Re.seq Re.eps

def ralt : List Re → Re
  | [] => Re.eps
  | [r] => r
  | r :: rest => Re.alt r (ralt rest)

def rstr (s : String) : Re := rcat (s.data.map fun c => Re.cc (CC.lit c))

def rmany (r : Re) : Re := Re.rep 0 none false r

def rmany1 (r : Re) : Re := Re.rep 1 none false r

def ropt (r : Re) : Re := Re.rep 0 (some 1) false r

def rlzy (lo : Nat) (hi : Option Nat) (r : Re) : Re := Re.rep lo hi true r

def sp : Re := Re.cc CC.space

def sps : Re := rmany1 sp

def sps0 : Re := rmany sp

def dgt : Re := Re.cc CC.digit

/-- The money amount capture body: one or more digits or commas, a dot,
and exactly two digits. -/
def moneyCore : Re :=
  rcat [rmany1 (Re.cc (CC.cls false [CItem.digit, CItem.ch ','])), rstr ".", dgt, dgt]

/-- A decimal number: digits with an optional fraction. -/
def numRe : Re :=
  rcat [rmany1 dgt, ropt (rcat [rstr ".", rmany1 dgt])]

/-! ## Numeric normalization (JavaScript numbers modelled as exact rationals) -/

/-- JavaScript parseFloat: skip leading whitespace, then read the longest
prefix of the form sign, digits, optional dot and digits, optional
exponent.  `none` models NaN (no numeric prefix).  The Infinity literal
has no rational counterpart and is modelled as `none`; no embedded call
site produces it. -/
def jsParseFloat (s : List Char) : Option ℚ :=
  let l := s.dropWhile jsSpace
  let sl : ℚ × List Char :=
    match l with
    | c :: rest => if c == '-' then (-1, rest) else if c == '+' then (1, rest) else (1, l)
    | [] => (1, [])
  let sgn := sl.1
  let l1 := sl.2
  let ipart := l1.takeWhile jsDigit
  let l2 := l1.dropWhile jsDigit
  let fl : List Char × List Char :=
    match l2 with
    | c :: rest => if c == '.' then (rest.takeWhile jsDigit, rest.dropWhile jsDigit) else ([], l2)
    | [] => ([], [])
  let fpart := fl.1
  let l3 := fl.2
  if ipart.isEmpty && fpart.isEmpty then none
  else
    let mant : ℚ := mkRat (digitsToNat (ipart ++ fpart) : ℤ) 1 / ((10 : ℚ) ^ fpart.length)
    let ex : ℤ :=
      match l3 with
      | c :: rest =>
        if c == 'e' || c == 'E' then
          match rest with
          | d :: rest2 =>
            if d == '-' then -(digitsToNat (rest2.takeWhile jsDigit) : ℤ)
            else if d == '+' then (digitsToNat (rest2.takeWhile jsDigit) : ℤ)
            else (digitsToNat (rest.takeWhile jsDigit) : ℤ)
          | [] => 0
        else 0
      | [] => 0
    some (sgn * mant * (10 : ℚ) ^ ex)

/-- parseMoney from src/invoice-parser.js lines 387-395 (the same function
appears verbatim in src/unnamed/part_002): strip dollar signs and commas,
trim, parse with parseFloat, map NaN to zero.  The typeof-number early
return is outside the string model, and an empty input reaches the same
zero result through the NaN branch that the falsy guard returns early. -/
def parseMoney (s : List Char) : ℚ :=
  let str := jsTrim (s.filter fun c => !(c == '$' || c == ','))
  match jsParseFloat str with
  | some q => q
  | none => 0

/-- Decimal digits of a natural number, most significant first; the
fuel argument (any bound above the digit count) keeps the recursion
structural. -/
def natDigitsGo : Nat → Nat → List Char
  | 0, _ => []
  | fuel + 1, n =>
    if n < 10 then [Char.ofNat (48 + n)]
    else natDigitsGo fuel (n / 10) ++ [Char.ofNat (48 + n % 10)]

/-- Decimal digits of a natural number, most significant first. -/
def natDigits (n : Nat) : List Char := natDigitsGo (n + 1) n

/-- Insert thousands separators into a reversed digit list. -/
def commaRev : List Char → Nat → List Char
  | [], _ => []
  | c :: rest, k =>
    if k % 3 == 0 && k != 0 then ',' :: c :: commaRev rest (k + 1)
    else c :: commaRev rest (k + 1)

/-- en-US thousands grouping of a digit string. -/
def groupDigits (ds : List Char) : List Char :=
  (commaRev ds.reverse 0).reverse

/-- Two-decimal rendering of a cent count below 100. -/
def twoDigits (n : Nat) : List Char :=
  [Char.ofNat (48 + n / 10 % 10), Char.ofNat (48 + n % 10)]

/-- Nonnegative core of `fmtMoney`: round to the nearest cent (ties away
from zero) and print dollar sign, grouped integer part, dot, two digits. -/
def fmtMoneyPos (v : ℚ) : List Char :=
  let cents : Nat := (Int.floor (v * 100 + 1 / 2)).toNat
  '$' :: (groupDigits (natDigits (cents / 100)) ++ '.' :: twoDigits (cents % 100))

/-- fmtMoney from src/script.js lines 33-41.  The body delegates to
Intl.NumberFormat(en-US, currency USD), modelled here per ECMA-402:
dollar sign, thousands separators, exactly two fraction digits with
half-away-from-zero rounding, and a leading minus for negatives.  The
catch branch is unreachable because USD is a valid currency code. -/
def fmtMoney (v : ℚ) : List Char :=
  if v < 0 then '-' :: fmtMoneyPos (-v) else fmtMoneyPos v

/-! ## Date normalization (normalizeDate, src/invoice-parser.js lines 400-462) -/

/-- The day-month-abbreviation-year pattern (two-digit day allowed):
digits 1-2, letters 3, digits 2, searched anywhere, case-insensitive. -/
def reDDMMMYY : Re :=
  rcat [Re.grp 1 (Re.rep 1 (some 2) false dgt),
        Re.grp 2 (Re.rep 3 (some 3) false
          (Re.cc (CC.cls false [CItem.range 'A' 'Z', CItem.range 'a' 'z']))),
        Re.grp 3 (Re.rep 2 (some 2) false dgt)]

/-- A slash or dash separator class. -/
def slashDash : Re := Re.cc (CC.cls false [CItem.ch '/', CItem.ch '-'])

/-- The month/day/year pattern: digits 1-2, separator, digits 1-2,
separator, digits 2-4. -/
def reMDY : Re :=
  rcat [Re.grp 1 (Re.rep 1 (some 2) false dgt), slashDash,
        Re.grp 2 (Re.rep 1 (some 2) false dgt), slashDash,
        Re.grp 3 (Re.rep 2 (some 4) false dgt)]

/-- The year-month-day pattern: digits 4, separator, digits 1-2,
separator, digits 1-2. -/
def reYMD : Re :=
  rcat [Re.grp 1 (Re.rep 4 (some 4) false dgt), slashDash,
        Re.grp 2 (Re.rep 1 (some 2) false dgt), slashDash,
        Re.grp 3 (Re.rep 1 (some 2) false dgt)]

/-- The three-letter month lookup table of normalizeDate. -/
def monthMap (mon : List Char) : Option (List Char) :=
  if mon = "jan".data then some "01".data
  else if mon = "feb".data then some "02".data
  else if mon = "mar".data then some "03".data
  else if mon = "apr".data then some "04".data
  else if mon = "may".data then some "05".data
  else if mon = "jun".data then some "06".data
  else if mon = "jul".data then some "07".data
  else if mon = "aug".data then some "08".data
  else if mon = "sep".data then some "09".data
  else if mon = "oct".data then some "10".data
  else if mon = "nov".data then some "11".data
  else if mon = "dec".data then some "12".data
  else none

/-- The two-digit-year pivot used verbatim in both branches of
normalizeDate: parseInt(year) above 50 maps to 19xx, the rest to 20xx. -/
def y2to4 (y : List Char) : List Char :=
  if digitsToNat y > 50 then '1' :: '9' :: y else '2' :: '0' :: y

/-- normalizeDate from src/invoice-parser.js lines 400-462, on string
inputs (the Excel serial-number branch guards on typeof number and is
unreachable for strings).  The three explicit format branches are
embedded; the final fallback delegates to the host JavaScript Date
parser, which is outside the model: `none` means the function falls
through to that host parse, while `some r` means it returns `r` without
consulting the host. -/
def normalizeDateCore (value : List Char) : Option (List Char) :=
  if value = [] then some []
  else
    let str := jsTrim value
    let viaMDY : Option (List Char) :=
      match searchIn false reMDY str with
      | some m =>
        let mo := capStrD str m 1
        let d := capStrD str m 2
        let y := capStrD str m 3
        let y4 := if y.length = 2 then y2to4 y else y
        some (padStart 4 '0' y4 ++ '-' :: (padStart 2 '0' mo ++ '-' :: padStart 2 '0' d))
      | none =>
        match searchIn false reYMD str with
        | some m =>
          let y := capStrD str m 1
          let mo := capStrD str m 2
          let d := capStrD str m 3
          some (y ++ '-' :: (padStart 2 '0' mo ++ '-' :: padStart 2 '0' d))
        | none => none
    match searchIn true reDDMMMYY str with
    | some m =>
      let d := capStrD str m 1
      let mon := capStrD str m 2
      let y := capStrD str m 3
      match monthMap (listToLower mon) with
      | some mm => some (y2to4 y ++ '-' :: (mm ++ '-' :: padStart 2 '0' d))
      | none => viaMDY
    | none => viaMDY

/-! ## Line items, totals and comments (class InvoiceParser,
src/invoice-parser.js) -/

/-- A parsed invoice line item.  Quantities and money amounts are
JavaScript numbers, modelled as exact rationals. -/
structure LineItem where
  quantity : ℚ
  description : List Char
  unitPrice : ℚ
  amount : ℚ
deriving DecidableEq, Repr

namespace InvoiceParser

/-- A looser money body used by the MATERIAL pattern: digits or commas,
a dot, one or more digits. -/
def moneyLoose : Re :=
  rcat [rmany1 (Re.cc (CC.cls false [CItem.digit, CItem.ch ','])), rstr ".", rmany1 dgt]

/-- Line-item pattern 1 (Affiliated Metals format), line 266:
MATERIAL, quantity, PCS, at-sign, unit price, EA, extended price. -/
def liPat1 : Re :=
  rcat [rstr "MATERIAL", sps, Re.grp 1 numRe, sps, rstr "PCS", sps, rstr "@", sps,
        Re.grp 2 moneyLoose, sps, rstr "EA", sps, Re.grp 3 moneyLoose]

/-- The description back-search of pattern 1, line 274: digits, space,
a capitalized run (lazy), ending before a quantity-PCS pair or ASTM. -/
def liDescRe : Re :=
  rcat [rmany1 dgt, sps,
        Re.grp 1 (rcat [Re.cc (CC.cls false [CItem.range 'A' 'Z']),
          rlzy 1 none (Re.cc (CC.cls false
            [CItem.range 'A' 'Z', CItem.space, CItem.digit, CItem.ch '.', CItem.ch '-']))]),
        ralt [rcat [sps, rmany1 dgt, sps, rstr "PCS"], rcat [sps, rstr "ASTM"]]]

/-- Items produced by pattern 1, including the 300-character back-window
description search with the Material default (lines 269-283). -/
def pattern1Items (text : List Char) : List LineItem :=
  (gscan true liPat1 text).map fun m =>
    let quantity := (jsParseFloat (capStrD text m 1)).getD 0
    let unitPrice := parseMoney (capStrD text m 2)
    let extPrice := parseMoney (capStrD text m 3)
    let beforeMatch := (text.take m.ms).drop (m.ms - 300)
    let description :=
      match searchIn true liDescRe beforeMatch with
      | some dm => jsTrim (capStrD beforeMatch dm 1)
      | none => "Material".data
    ⟨quantity, description, unitPrice, extPrice⟩

/-- Line-item pattern 2, line 287: quantity, description of 11 to 81
characters starting with a capital or digit and free of dollar signs and
newlines, then unit price and extended price. -/
def liPat2 : Re :=
  rcat [Re.grp 1 numRe, sps,
        Re.grp 2 (rcat [Re.cc (CC.cls false [CItem.range 'A' 'Z', CItem.range '0' '9']),
          rlzy 10 (some 80) (Re.cc (CC.cls true [CItem.ch '$', CItem.ch '\n']))]),
        sps, ropt (rstr "$"), Re.grp 3 moneyCore, sps, ropt (rstr "$"), Re.grp 4 moneyCore]

/-- Items produced by pattern 2 (lines 289-298). -/
def pattern2Items (text : List Char) : List LineItem :=
  (gscan true liPat2 text).map fun m =>
    ⟨(jsParseFloat (capStrD text m 1)).getD 0,
     jsTrim (capStrD text m 2),
     parseMoney (capStrD text m 3),
     parseMoney (capStrD text m 4)⟩

/-- Line-item pattern 3, line 303 (multiline): a line of optional
whitespace, a lazy 15-to-100-character description, whitespace, an
optional dollar sign and a money amount at end of line. -/
def liPat3 : Re :=
  rcat [Re.bol, rmany (Re.cc (CC.cls false [CItem.space])),
        Re.grp 1 (rlzy 15 (some 100) (Re.cc CC.dot)),
        sps, ropt (rstr "$"), Re.grp 2 moneyCore, Re.eol]

/-- The non-item prefix test of pattern 3, line 309. -/
def liSkipRe : Re :=
  ralt [rstr "subtotal", rstr "total", rstr "tax", rstr "freight",
        rstr "shipping", rstr "payment", rstr "balance"]

/-- Items produced by pattern 3 (lines 305-319): matches whose
description starts like a totals row are skipped; survivors get
quantity one and identical unit price and amount. -/
def pattern3Items (text : List Char) : List LineItem :=
  (gscan false liPat3 text).filterMap fun m =>
    let description := capStrD text m 1
    let amount := capStrD text m 2
    if testAtStart true liSkipRe description then none
    else some ⟨1, jsTrim description, parseMoney amount, parseMoney amount⟩

/-- extractLineItems from src/invoice-parser.js lines 262-323: pattern 1
runs first; pattern 2 runs only if pattern 1 produced nothing; pattern 3
runs only if both produced nothing. -/
def extractLineItems (text : List Char) : List LineItem :=
  let l1 := pattern1Items text
  if l1.isEmpty then
    let l2 := pattern2Items text
    if l2.isEmpty then pattern3Items text else l2
  else l1

/-- Total pattern 1, line 234: TOTAL, an optional DUE, AMOUNT or INVOICE
keyword, optional colon, optional dollar sign, money. -/
def totalRe1 : Re :=
  rcat [rstr "TOTAL", sps, ropt (ralt [rstr "DUE", rstr "AMOUNT", rstr "INVOICE"]),
        ropt (rstr ":"), sps0, ropt (rstr "$"), sps0, Re.grp 1 moneyCore]

/-- Total pattern 2, line 235: PLEASE PAY or AMOUNT DUE, optional colon,
optional dollar sign, money. -/
def totalRe2 : Re :=
  rcat [ralt [rstr "PLEASE PAY", rstr "AMOUNT DUE"], ropt (rstr ":"), sps0,
        ropt (rstr "$"), sps0, Re.grp 1 moneyCore]

/-- Total pattern 3, line 236 (multiline): TOTAL after a line start or a
whitespace character, optional colon, optional dollar sign, money. -/
def totalRe3 : Re :=
  rcat [ralt [Re.bol, sp], rstr "TOTAL", ropt (rstr ":"), sps0,
        ropt (rstr "$"), sps0, Re.grp 1 moneyCore]

/-- The total-amount cascade of parseInvoiceText (lines 232-245): the
first matching pattern wins; `none` means no pattern matched, so the
totalAmount field keeps its initial zero. -/
def findTotal (text : List Char) : Option ℚ :=
  match searchIn true totalRe1 text with
  | some m => some (parseMoney (capStrD text m 1))
  | none =>
    match searchIn true totalRe2 text with
    | some m => some (parseMoney (capStrD text m 1))
    | none =>
      match searchIn true totalRe3 text with
      | some m => some (parseMoney (capStrD text m 1))
      | none => none

/-- A run of non-newline characters with counted bounds, the class used
by the comment patterns. -/
def nonNL (lo hi : Nat) : Re :=
  Re.rep lo (some hi) false (Re.cc (CC.cls true [CItem.ch '\n']))

def cmtRe1 : Re := rcat [rstr "NOTE", ropt (rstr ":"), sps0, Re.grp 1 (nonNL 20 200)]

def cmtRe2 : Re := rcat [rstr "COMMENT", ropt (rstr ":"), sps0, Re.grp 1 (nonNL 20 200)]

def cmtRe3 : Re := rcat [rstr "MEMO", ropt (rstr ":"), sps0, Re.grp 1 (nonNL 20 200)]

def cmtRe4 : Re :=
  rcat [rstr "SPECIAL INSTRUCTION", ropt (rstr "S"), ropt (rstr ":"), sps0,
        Re.grp 1 (nonNL 20 200)]

def cmtRe5 : Re :=
  rcat [ralt [rstr "ACH", rstr "WIRE", rstr "BANK"], sps,
        ralt [rstr "ROUTING", rstr "ACCOUNT"], nonNL 20 200]

def cmtRe6 : Re := rcat [rstr "HEAT", sps, rstr "NUMBER", ropt (rstr ":"), sps0, rmany1 dgt]

def cmtRe7 : Re :=
  rcat [ralt [rstr "PO", rstr "P.O.", rstr "PURCHASE ORDER"],
        ropt (rcat [sps, rstr "#"]), ropt (rstr ":"), sps0,
        rmany1 (Re.cc (CC.cls false [CItem.word, CItem.ch '-']))]

/-- The comment patterns of extractComments in source order (lines 332-340). -/
def commentPatterns : List Re := [cmtRe1, cmtRe2, cmtRe3, cmtRe4, cmtRe5, cmtRe6, cmtRe7]

/-- Every candidate comment: for each pattern in order, the full text of
each match, trimmed (lines 342-345). -/
def commentCandidates (text : List Char) : List (List Char) :=
  (commentPatterns.map fun re => (gscan true re text).map fun m => jsTrim (wholeMatch text m)).flatten

/-- extractComments from src/invoice-parser.js lines 328-353: a candidate
is appended only when longer than 10 characters and not already present. -/
def extractComments (text : List Char) : List (List Char) :=
  commentCandidates text |>.foldl
    (fun acc c => if decide (10 < c.length) && !acc.contains c then acc ++ [c] else acc) []

/-- The record fields of parseInvoiceText any claim concerns. -/
structure InvoiceRecord where
  description : List Char
  lineItems : List LineItem
  totalAmount : ℚ
  comments : List (List Char)
deriving DecidableEq, Repr

/-- parseInvoiceText from src/invoice-parser.js lines 131-257, restricted
to the fields the claims concern (description, lineItems, totalAmount,
comments).  The supplier, invoiceId, invoiceDate, dueDate and netTerms
cascades of the source write only their own result fields from the same
read-only text and have no effect on the fields modelled here.  The
description is initially empty and is backfilled from the first line
item, truncated to 100 characters (lines 251-254); the totalAmount is
initially zero and is set only by the first matching total pattern. -/
def parseInvoiceText (text : List Char) : InvoiceRecord :=
  let lineItems := extractLineItems text
  let totalAmount := (findTotal text).getD 0
  let comments := extractComments text
  let description :=
    match lineItems with
    | [] => []
    | it :: _ => it.description.take 100
  ⟨description, lineItems, totalAmount, comments⟩

end InvoiceParser

/-! ## The enhanced parser (class EnhancedInvoiceParser, src/unnamed/part_002) -/

/-- Non-newline test for line splitting. -/
def notNL (c : Char) : Bool := !(c == '\r' || c == '\n')

def splitNLGo : Nat → List Char → List (List Char)
  | 0, _ => []
  | f + 1, l =>
    let seg := l.takeWhile notNL
    let rest := l.dropWhile notNL
    match rest with
    | [] => [seg]
    | _ :: rest2 => seg :: splitNLGo f (rest2.dropWhile fun c => !notNL c)

/-- String.split on runs of carriage returns and newlines, as in
text.split with the class-of-line-breaks-plus regex: segments between
maximal line-break runs, keeping empty leading and trailing segments. -/
def splitNL (l : List Char) : List (List Char) :=
  splitNLGo (l.length + 1) l

namespace EnhancedInvoiceParser

/-- Money body with an optional dot: digits or commas, optional dot, two
digits (the table pattern uses this looser shape). -/
def moneyOptDot : Re :=
  rcat [rmany1 (Re.cc (CC.cls false [CItem.digit, CItem.ch ','])), ropt (rstr "."), dgt, dgt]

/-- The table pattern of extractTableFormat, line 440: quantity, a
description starting with capitals, digits or dashes followed by a lazy
tail, an optional unit token, and two money amounts. -/
def tableRe : Re :=
  rcat [Re.grp 1 numRe, sps,
        Re.grp 2 (rcat [rmany1 (Re.cc (CC.cls false
            [CItem.range 'A' 'Z', CItem.range '0' '9', CItem.ch '-'])),
          rlzy 0 none (Re.cc CC.dot)]),
        sps, ropt (ralt [rstr "EA", rstr "PCS", rstr "M", rstr "LB", rstr "lb"]), sps0,
        ropt (rstr "$"), Re.grp 3 moneyOptDot, sps, ropt (rstr "$"), Re.grp 4 moneyOptDot]

/-- The totals-row prefix blacklist of isValidLineItem, line 564. -/
def vBlacklistRe : Re :=
  ralt [rstr "subtotal", rstr "total", rstr "tax", rstr "freight",
        rstr "shipping", rstr "discount", rstr "payment"]

/-- isValidLineItem from src/unnamed/part_002 lines 559-580: description
length in range (an empty description is also rejected by the length
test), no totals-row prefix, positive bounded quantity, nonnegative
prices, and the amount within max(ten percent of quantity times unit
price, one currency unit) of the computed value.  The JavaScript 0.1
literal is the double nearest one tenth; it is modelled as the exact
rational, which agrees on every comparison the claims exercise. -/
def isValidLineItem (description : List Char) (quantity unitPrice amount : ℚ) : Bool :=
  if description.length < 3 ∨ 300 < description.length then false
  else if testAtStart true vBlacklistRe description then false
  else if quantity ≤ 0 ∨ 100000 < quantity then false
  else if unitPrice < 0 ∨ amount < 0 then false
  else
    let calculated := quantity * unitPrice
    let diff := |calculated - amount|
    let tolerance := max (calculated * (1 / 10)) 1
    decide (diff ≤ tolerance)

/-- extractTableFormat from src/unnamed/part_002 lines 432-461: each
global match yields a candidate, kept only when isValidLineItem accepts
it.  (The source also receives the split lines, which it does not use.) -/
def extractTableFormat (text : List Char) : List LineItem :=
  (gscan true tableRe text).filterMap fun m =>
    let quantity := (jsParseFloat (capStrD text m 1)).getD 0
    let description := jsTrim (capStrD text m 2)
    let unitPrice := parseMoney (capStrD text m 3)
    let amount := parseMoney (capStrD text m 4)
    if isValidLineItem description quantity unitPrice amount then
      some ⟨quantity, description, unitPrice, amount⟩
    else none

/-- The header and footer keywords of isHeaderOrFooter, lines 587-591. -/
def hfKeywords : List (List Char) :=
  ["invoice".data, "bill to".data, "ship to".data, "quantity".data, "description".data,
   "unit price".data, "amount".data, "total".data, "page".data, "thank you".data,
   "terms".data, "payment".data, "please".data]

/-- isHeaderOrFooter from lines 585-594. -/
def isHeaderOrFooter (line : List Char) : Bool :=
  hfKeywords.any fun kw => hasSubstr (listToLower line) kw

/-- The product-noun test of looksLikeProductDescription, line 551. -/
def productKeyRe : Re :=
  ralt [rstr "screw", rstr "bolt", rstr "nut", rstr "washer", rstr "plate", rstr "joint",
        rstr "rod", rstr "part", rstr "material", rstr "service", rstr "freight",
        rstr "charge", rstr "fee", rstr "assembly"]

/-- The title-case whole-line test of looksLikeProductDescription,
line 553: a capital followed by letters, whitespace, commas, digits or
dashes to the end of the line. -/
def titleLineRe : Re :=
  rcat [Re.cc (CC.cls false [CItem.range 'A' 'Z']),
        rmany1 (Re.cc (CC.cls false [CItem.range 'A' 'Z', CItem.range 'a' 'z',
          CItem.space, CItem.ch ',', CItem.digit, CItem.ch '-'])),
        Re.eol]

/-- looksLikeProductDescription from lines 544-554. -/
def looksLikeProductDescription (line : List Char) : Bool :=
  if line.length < 10 ∨ 200 < line.length then false
  else if isHeaderOrFooter line then false
  else (searchIn true productKeyRe line).isSome || testAtStart false titleLineRe line

/-- The quantity-and-two-amounts search of extractDescriptionFirst,
line 481 (no flags): a number, whitespace, a lazy gap, and two money
amounts. -/
def qtyPriceRe : Re :=
  rcat [Re.grp 1 numRe, sps, rlzy 0 none (Re.cc CC.dot), ropt (rstr "$"),
        Re.grp 2 moneyOptDot, sps, ropt (rstr "$"), Re.grp 3 moneyOptDot]

/-- extractDescriptionFirst from lines 466-499: for each line whose trim
looks like a product description, the line joined with its successor is
searched for a quantity and two amounts; a hit yields an item with the
line as description and no tolerance validation. -/
def extractDescriptionFirst (lines : List (List Char)) : List LineItem :=
  (List.range (lines.length - 1)).filterMap fun i =>
    let line := jsTrim (lines.getD i [])
    let nextLine := jsTrim (lines.getD (i + 1) [])
    if looksLikeProductDescription line then
      let combined := line ++ ' ' :: nextLine
      match searchIn false qtyPriceRe combined with
      | some m =>
        some ⟨(jsParseFloat (capStrD combined m 1)).getD 0, line,
              parseMoney (capStrD combined m 2), parseMoney (capStrD combined m 3)⟩
      | none => none
    else none

/-- The global dollar-amount pattern of extractLineByLine, line 513. -/
def dollarRe : Re :=
  rcat [rstr "$", rmany1 (Re.cc (CC.cls false [CItem.digit, CItem.ch ','])), rstr ".",
        dgt, dgt]

/-- The leading-quantity pattern of extractLineByLine, line 514: a number
after the line start or whitespace, followed by one whitespace. -/
def qtyLeadRe : Re :=
  rcat [ralt [Re.bol, sp], Re.grp 1 numRe, sp]

/-- The description search of extractLineByLine, line 524: a number, a
lazy description, and the first following dollar sign. -/
def lblDescRe : Re :=
  rcat [rmany1 dgt, ropt (rcat [rstr ".", rmany1 dgt]), sps,
        Re.grp 1 (rlzy 1 none (Re.cc CC.dot)), sps, rstr "$"]

/-- extractLineByLine from lines 504-539.  When a line has exactly one
dollar amount, the source computes unit price as amount divided by
quantity; rational division by a zero quantity is zero here where
JavaScript would produce Infinity, a value no claim exercises. -/
def extractLineByLine (lines : List (List Char)) : List LineItem :=
  lines.filterMap fun line =>
    if isHeaderOrFooter line then none
    else
      let dollarAmounts := (gscan false dollarRe line).map (wholeMatch line)
      match searchIn false qtyLeadRe line with
      | some qm =>
        match dollarAmounts.getLast? with
        | some lastAmt =>
          let quantity := (jsParseFloat (capStrD line qm 1)).getD 0
          let amount := parseMoney lastAmt
          let unitPrice :=
            if 1 < dollarAmounts.length then
              parseMoney (dollarAmounts.getD (dollarAmounts.length - 2) [])
            else amount / quantity
          let description :=
            match searchIn false lblDescRe line with
            | some dm => jsTrim (capStrD line dm 1)
            | none => line.take 50
          if 5 ≤ description.length then
            some ⟨quantity, description, unitPrice, amount⟩
          else none
        | none => none
      | none => none

/-- extractLineItems from src/unnamed/part_002 lines 398-427: the table
strategy runs first and its items are returned if any; otherwise the
description-first strategy is appended and returned if nonempty;
otherwise the line-by-line strategy is appended. -/
def extractLineItems (text : List Char) : List LineItem :=
  let lines := splitNL text
  let items1 := extractTableFormat text
  if !items1.isEmpty then items1
  else
    let items2 := items1 ++ extractDescriptionFirst lines
    if !items2.isEmpty then items2
    else items2 ++ extractLineByLine lines

end EnhancedInvoiceParser

/-! ## PDF text acquisition and OCR routing (class RemittanceParser,
src/unnamed/part_000) -/

namespace RemittanceParser

/-- The text layer handed to parsePDF, modelled as the str fields of each
per-page text-content items: parsePDF joins the items of each page with spaces
and appends a newline per page (src/unnamed/part_000 lines 109-115). -/
def pdfFullText (pages : List (List (List Char))) : List Char :=
  (pages.map fun items => List.intercalate [' '] items ++ ['\n']).flatten

/-- The OCR routing decision of parsePDF (lines 117-129): hasText is true
exactly when the trimmed concatenated text layer is longer than 50
characters, and the OCR fallback is attempted exactly when hasText is
false. -/
def pdfRoutesToOCR (pages : List (List (List Char))) : Bool :=
  let hasText := decide (50 < (jsTrim (pdfFullText pages)).length)
  !hasText

end RemittanceParser

/-! ## File-type detection (src/script.js lines 250-260, identical in
src/invoice-parser.js lines 80-97 and src/unnamed/part_000 lines 76-93) -/

inductive FileType where
  | pdf
  | xlsx
  | csv
deriving DecidableEq, Repr

/-- getExtension: the text after the last dot of the filename (the whole
name when it has no dot), lower-cased. -/
def getExtension (name : List Char) : List Char :=
  listToLower (((name.splitOn '.').getLast?).getD [])

/-- detectFileType: the declared MIME type is lower-cased, and each
supported type is tested in order by extension or MIME type; `none`
models the thrown Unknown-file-type error. -/
def detectFileType (ext mimeRaw : List Char) : Option FileType :=
  let mime := listToLower mimeRaw
  if ext = "pdf".data ∨ mime = "application/pdf".data then some .pdf
  else if ext = "xlsx".data ∨ ext = "xls".data ∨ hasSubstr mime "spreadsheet".data ∨
      hasSubstr mime "excel".data then some .xlsx
  else if ext = "csv".data ∨ mime = "text/csv".data then some .csv
  else none

/-- File classification as parseFile performs it: extension extraction
followed by detectFileType. -/
def classifyFile (name mimeRaw : List Char) : Option FileType :=
  detectFileType (getExtension name) mimeRaw

/-! ## Definitions written from the claims, for comparison with the code -/

/-- Days in a month of the proleptic Gregorian calendar, used to state
the claimed valid-calendar-date property. -/
def specDaysInMonth (mo y : Nat) : Nat :=
  if mo = 2 then (if (y % 4 = 0 ∧ y % 100 ≠ 0) ∨ y % 400 = 0 then 29 else 28)
  else if mo = 4 ∨ mo = 6 ∨ mo = 9 ∨ mo = 11 then 30 else 31

/-- The shape and range check claimed for normalizeDate output: a
YYYY-MM-DD string whose month lies in 1..12 and whose day is valid for
that month.  Written from the claim, not from the code. -/
def specIsCalendarYYYYMMDD (s : List Char) : Bool :=
  match s with
  | [y1, y2, y3, y4, h1, m1, m2, h2, d1, d2] =>
    jsDigit y1 && jsDigit y2 && jsDigit y3 && jsDigit y4 && h1 == '-' &&
      jsDigit m1 && jsDigit m2 && h2 == '-' && jsDigit d1 && jsDigit d2 &&
      (decide (1 ≤ digitsToNat [m1, m2]) && decide (digitsToNat [m1, m2] ≤ 12) &&
        decide (1 ≤ digitsToNat [d1, d2]) &&
        decide (digitsToNat [d1, d2] ≤
          specDaysInMonth (digitsToNat [m1, m2]) (digitsToNat [y1, y2, y3, y4])))
  | _ => false

/-- The claimed output contract of normalizeDate: empty, or a valid
calendar date.  Written from the claim, not from the code. -/
def specValidDateOut (s : List Char) : Bool :=
  s.isEmpty || specIsCalendarYYYYMMDD s

/-- The four channels the claimed classifier distinguishes. -/
inductive SpecChannel where
  | pdf
  | spreadsheet
  | text
  | image
deriving DecidableEq, Repr

/-- The channel classifier exactly as claim C5 describes it: explicit
extension match first across all four channels, then declared media-type
substring match, then failure (UnsupportedChannel, modelled as none).
Written from the claim, not from the code. -/
def specDetectChannel (ext mime : List Char) : Option SpecChannel :=
  if ext = "pdf".data then some .pdf
  else if ext = "xlsx".data ∨ ext = "xls".data ∨ ext = "csv".data then some .spreadsheet
  else if ext = "eml".data ∨ ext = "msg".data ∨ ext = "txt".data then some .text
  else if ext = "png".data ∨ ext = "jpg".data ∨ ext = "jpeg".data then some .image
  else if hasSubstr mime "application/pdf".data then some .pdf
  else if hasSubstr mime "spreadsheet".data ∨ hasSubstr mime "excel".data then some .spreadsheet
  else if hasSubstr mime "image/".data then some .image
  else if hasSubstr mime "text/".data then some .text
  else none

/-- The OCR routing condition claim C4 states: the concatenated text
layer has fewer than 50 characters, or there are zero text fragments.
Written from the claim, not from the code. -/
def specOCRCondition (pages : List (List (List Char))) : Prop :=
  (RemittanceParser.pdfFullText pages).length < 50 ∨ (pages.map List.length).sum = 0

instance (pages : List (List (List Char))) : Decidable (specOCRCondition pages) := by
  unfold specOCRCondition; infer_instance

/-! ## Concrete documents used by witnesses and counterexamples -/

/-- A document with one description-and-amount line and no text matching
any total pattern. -/
def docNoTotal : List Char := "Widget assembly unit ABC 123.45".data

/-- A document whose single pattern-2 line item has amount 50.00 against
quantity 2 and unit price 10.00, far outside the claimed tolerance. -/
def docBadItem : List Char := "2 WIDGETASSEMBLY 10.00 50.00".data

/-- A MATERIAL-format document exercising line-item pattern 1. -/
def docMaterial : List Char := "MATERIAL 5 PCS @ 2.00 EA 10.00".data

/-- A table-format document whose item passes tolerance validation. -/
def docTable : List Char := "10 RJ-331300 WIDGET PLUS EA 66.00 660.00".data

/-- A document whose first line is product-like and whose second line
carries the quantity and amounts, for the description-first strategy. -/
def docDescFirst : List Char := "Steel bolt assembly kit\n5 12.00 60.00".data

/-- A document that produces no line items under any strategy. -/
def docEmptyish : List Char := "hello".data

/-- A single PDF page whose single text fragment has exactly 50
non-whitespace characters. -/
def pagesBoundary : List (List (List Char)) := [[List.replicate 50 'x']]

/-- A document carrying one NOTE comment. -/
def docComment : List Char := "NOTE: ship to rear dock after five pm".data

/-! ## Claim C1 -/

/-- Claim C1, amended (corrected).  When no total pattern of the
cascade matches the document text, the totalAmount of the returned record
keeps its initial zero: the claimed fallback to the sum of line-item
amounts does not exist in parseInvoiceText.  (A downstream rendering
layer in src/unnamed/part_001 later backfills the displayed total from
the line items, but that happens outside the returned record.) -/
theorem c1NoTotalYieldsZero (text : List Char)
    (h : InvoiceParser.findTotal text = none) :
    (InvoiceParser.parseInvoiceText text).totalAmount = 0 := by
  unfold InvoiceParser.parseInvoiceText
  simp [h]

/-- Witness for C1: on the concrete no-total document the cascade finds
nothing and the total of the parsed record is zero. -/
theorem c1NoTotalYieldsZeroWitness :
    (InvoiceParser.parseInvoiceText docNoTotal).totalAmount = 0 :=
  c1NoTotalYieldsZero docNoTotal (by decide!)

/-- Counterexample to claim C1 as stated: on docNoTotal no total pattern
matches, the extracted line items sum to 123.45, and the returned
totalAmount is zero, not that sum. -/
theorem c1Counterexample :
    InvoiceParser.findTotal docNoTotal = none ∧
    ((InvoiceParser.parseInvoiceText docNoTotal).lineItems.map LineItem.amount).sum = 2469 / 20 ∧
    (InvoiceParser.parseInvoiceText docNoTotal).totalAmount ≠
      ((InvoiceParser.parseInvoiceText docNoTotal).lineItems.map LineItem.amount).sum :=
  ⟨by decide!, by decide!, by decide!⟩

/-! ## Claim C4 -/

/-- Claim C4, amended (corrected).  parsePDF routes a document to the
OCR fallback exactly when the trimmed concatenated text layer has at
most 50 characters (hasText is trimmed length strictly above 50); the
zero-fragments case is subsumed, since zero fragments leave only page
newlines, which trim away. -/
theorem c4OCRIffTrimmedAtMost50 (pages : List (List (List Char))) :
    RemittanceParser.pdfRoutesToOCR pages = true ↔
      (jsTrim (RemittanceParser.pdfFullText pages)).length ≤ 50 := by
  unfold RemittanceParser.pdfRoutesToOCR
  simp

/-- Counterexample to claim C4 as stated: a single page with one
50-character fragment is routed to OCR although it has one fragment and
its concatenated text layer (51 characters with the page newline) does
not have fewer than 50 characters. -/
theorem c4Counterexample :
    RemittanceParser.pdfRoutesToOCR pagesBoundary = true ∧ ¬specOCRCondition pagesBoundary :=
  ⟨by decide!, by decide!⟩

/-! ## Claim C5 -/

/-- Claim C5, amended (corrected).  detectFileType returns only the pdf,
xlsx and csv types; each type is tested in order by its own extension or
media-type condition (pdf extension or exact application/pdf media type;
xlsx or xls extension or a media type containing spreadsheet or excel;
csv extension or exact text/csv media type), and the classifier fails
with Unknown file type exactly when none of the three conditions holds.
The claimed text and image channels do not exist in the code, and
media-type tests are interleaved with extension tests per type rather
than tried after all extensions. -/
theorem c5DetectCharacterization (ext mime : List Char) :
    (detectFileType ext mime = some FileType.pdf ↔
      (ext = "pdf".data ∨ listToLower mime = "application/pdf".data)) ∧
    (detectFileType ext mime = some FileType.xlsx ↔
      (¬(ext = "pdf".data ∨ listToLower mime = "application/pdf".data) ∧
        (ext = "xlsx".data ∨ ext = "xls".data ∨
          hasSubstr (listToLower mime) "spreadsheet".data = true ∨
          hasSubstr (listToLower mime) "excel".data = true))) ∧
    (detectFileType ext mime = some FileType.csv ↔
      (¬(ext = "pdf".data ∨ listToLower mime = "application/pdf".data) ∧
        ¬(ext = "xlsx".data ∨ ext = "xls".data ∨
          hasSubstr (listToLower mime) "spreadsheet".data = true ∨
          hasSubstr (listToLower mime) "excel".data = true) ∧
        (ext = "csv".data ∨ listToLower mime = "text/csv".data))) ∧
    (detectFileType ext mime = none ↔
      (¬(ext = "pdf".data ∨ listToLower mime = "application/pdf".data) ∧
        ¬(ext = "xlsx".data ∨ ext = "xls".data ∨
          hasSubstr (listToLower mime) "spreadsheet".data = true ∨
          hasSubstr (listToLower mime) "excel".data = true) ∧
        ¬(ext = "csv".data ∨ listToLower mime = "text/csv".data))) := by
  simp only [detectFileType]
  split_ifs with h1 h2 h3 <;> simp_all

/-- Counterexample to claim C5 as stated: a txt file with a text MIME
type is a text channel for the claimed classifier but an Unknown-file-
type failure for the code, both at the extension level and through the
full filename path. -/
theorem c5Counterexample :
    specDetectChannel "txt".data "text/plain".data = some SpecChannel.text ∧
    detectFileType "txt".data "text/plain".data = none ∧
    classifyFile "notes.txt".data "text/plain".data = none :=
  ⟨by decide, by decide, by decide⟩

/-! ## Claim C9 -/

/-- Claim C9 (confirmed).  Every line item produced by the final
fallback strategy of InvoiceParser.extractLineItems (pattern 3, a
description followed by a single currency amount on one line) has
quantity one and unit price equal to amount, so quantity times unit
price equals amount exactly. -/
theorem c9FallbackUnitItems (text : List Char) (it : LineItem)
    (h : it ∈ InvoiceParser.pattern3Items text) :
    it.quantity = 1 ∧ it.unitPrice = it.amount ∧ it.quantity * it.unitPrice = it.amount := by
  rcases List.mem_filterMap.mp h with ⟨m, -, hm⟩
  dsimp only at hm
  split at hm
  · exact absurd hm (by simp)
  · injection hm with hm
    subst hm
    exact ⟨rfl, rfl, one_mul _⟩

/-! ## Claim C3 -/

/-- Claim C3, amended (corrected).  Whenever normalizeDate answers
through one of its explicit format branches, the result is either the
empty string (for empty input) or a string assembled as year, dash,
month, dash, day from the captured components, with no validation that
the month or day lies in a valid calendar range; in particular
normalizeDate("13/45/99") returns "1999-13-45", not the empty string. -/
theorem c3ShapeWithoutRangeValidation (s r : List Char)
    (h : normalizeDateCore s = some r) :
    r = [] ∨ ∃ y mo d : List Char, r = y ++ '-' :: (mo ++ '-' :: d) := by
  unfold normalizeDateCore at h
  split_ifs at h
  · left
    injection h with h
    exact h.symm
  · right
    simp only [] at h
    split at h
    · split at h
      · injection h with h
        exact ⟨_, _, _, h.symm⟩
      · split at h
        · injection h with h
          exact ⟨_, _, _, h.symm⟩
        · split at h
          · injection h with h
            exact ⟨_, _, _, h.symm⟩
          · cases h
    · split at h
      · injection h with h
        exact ⟨_, _, _, h.symm⟩
      · split at h
        · injection h with h
          exact ⟨_, _, _, h.symm⟩
        · cases h

/-- Witness for C3 (amended): the shape of the "13/45/99" output. -/
theorem c3ShapeWithoutRangeValidationWitness :
    "1999-13-45".data = [] ∨
    ∃ y mo d : List Char, "1999-13-45".data = y ++ '-' :: (mo ++ '-' :: d) :=
  c3ShapeWithoutRangeValidation "13/45/99".data _ (by decide!)

/-- Counterexample to claim C3 as stated: normalizeDate("13/45/99")
returns "1999-13-45" through the month/day/year branch, which is neither
empty nor a valid calendar date (month 13, day 45). -/
theorem c3Counterexample :
    normalizeDateCore "13/45/99".data = some "1999-13-45".data ∧
    specValidDateOut "1999-13-45".data = false :=
  ⟨by decide!, by decide!⟩

/-! ## Claim C6 -/

/-- Claim C6 (confirmed).  normalizeDate maps every captured two-digit
year of at most 50 to 20xx and every two-digit year above 50 to 19xx,
both in the day-month-abbreviation-year branch and in the
month/day/year branch; in particular "02Oct25" normalizes to
"2025-10-02" (see the witness). -/
theorem c6TwoDigitYearPivot :
    (∀ (s d mon y mm : List Char) (m : MatchRes),
      searchIn true reDDMMMYY (jsTrim s) = some m →
      capStrD (jsTrim s) m 1 = d → capStrD (jsTrim s) m 2 = mon →
      capStrD (jsTrim s) m 3 = y → monthMap (listToLower mon) = some mm →
      (digitsToNat y ≤ 50 →
        normalizeDateCore s =
          some ('2' :: '0' :: y ++ '-' :: (mm ++ '-' :: padStart 2 '0' d))) ∧
      (50 < digitsToNat y →
        normalizeDateCore s =
          some ('1' :: '9' :: y ++ '-' :: (mm ++ '-' :: padStart 2 '0' d)))) ∧
    (∀ (s mo d y : List Char) (m : MatchRes),
      searchIn true reDDMMMYY (jsTrim s) = none →
      searchIn false reMDY (jsTrim s) = some m →
      capStrD (jsTrim s) m 1 = mo → capStrD (jsTrim s) m 2 = d →
      capStrD (jsTrim s) m 3 = y → y.length = 2 →
      (digitsToNat y ≤ 50 →
        normalizeDateCore s = some (padStart 4 '0' ('2' :: '0' :: y) ++ '-' ::
          (padStart 2 '0' mo ++ '-' :: padStart 2 '0' d))) ∧
      (50 < digitsToNat y →
        normalizeDateCore s = some (padStart 4 '0' ('1' :: '9' :: y) ++ '-' ::
          (padStart 2 '0' mo ++ '-' :: padStart 2 '0' d)))) := by
  constructor
  · intro s d mon y mm m hm hd hmon hy hmm
    have hs : ¬s = [] := by
      rintro rfl
      rw [show searchIn true reDDMMMYY (jsTrim []) = none from by decide] at hm
      cases hm
    have hgoal : normalizeDateCore s =
        some (y2to4 y ++ '-' :: (mm ++ '-' :: padStart 2 '0' d)) := by
      unfold normalizeDateCore
      rw [if_neg hs]
      simp only [hm, hd, hmon, hy, hmm]
    refine ⟨fun h50 => ?_, fun h50 => ?_⟩ <;> rw [hgoal] <;> unfold y2to4
    · rw [if_neg (by omega)]
    · rw [if_pos (by omega)]
  · intro s mo d y m hm0 hm hmo hd hy hylen
    have hs : ¬s = [] := by
      rintro rfl
      rw [show searchIn false reMDY (jsTrim []) = none from by decide] at hm
      cases hm
    have hgoal : normalizeDateCore s =
        some (padStart 4 '0' (y2to4 y) ++ '-' ::
          (padStart 2 '0' mo ++ '-' :: padStart 2 '0' d)) := by
      unfold normalizeDateCore
      rw [if_neg hs]
      simp only [hm0, hm, hmo, hd, hy, hylen, if_pos]
    refine ⟨fun h50 => ?_, fun h50 => ?_⟩ <;> rw [hgoal] <;> unfold y2to4
    · rw [if_neg (by omega)]
    · rw [if_pos (by omega)]

/-- Witness for C6: "02Oct25" maps year 25 to 2025 through the
day-month-abbreviation branch, and "03/04/99" maps year 99 to 1999
through the month/day/year branch. -/
theorem c6TwoDigitYearPivotWitness :
    normalizeDateCore "02Oct25".data = some "2025-10-02".data ∧
    normalizeDateCore "03/04/99".data = some "1999-03-04".data := by
  constructor
  · have h := ((c6TwoDigitYearPivot.1 "02Oct25".data "02".data "Oct".data "25".data
      "10".data ⟨0, 7, [(3, 5, 7), (2, 2, 5), (1, 0, 2)]⟩
      (by decide!) (by decide!) (by decide!) (by decide!) (by decide!)).1 (by decide))
    rw [h]
    decide
  · have h := ((c6TwoDigitYearPivot.2 "03/04/99".data "03".data "04".data "99".data
      ⟨0, 8, [(3, 6, 8), (2, 3, 5), (1, 0, 2)]⟩
      (by decide!) (by decide!) (by decide!) (by decide!) (by decide!) (by decide!)).2 (by decide))
    rw [h]
    decide

/-! ## Claim C7 -/

/-- Character values of rendered decimal digits. -/
theorem charDigitToNat (d : Nat) (h : d < 10) : (Char.ofNat (48 + d)).toNat = 48 + d := by
  interval_cases d <;> rfl

/-- The digit-accumulation fold with an arbitrary accumulator. -/
theorem digitsToNatFoldl (ys : List Char) :
    ∀ acc : Nat, ys.foldl (fun acc c => acc * 10 + (c.toNat - 48)) acc =
      acc * 10 ^ ys.length + digitsToNat ys := by
  induction ys with
  | nil => intro acc; simp [digitsToNat]
  | cons c t ih =>
    intro acc
    have hcons : digitsToNat (c :: t) = (c.toNat - 48) * 10 ^ t.length + digitsToNat t := by
      show List.foldl _ 0 (c :: t) = _
      rw [List.foldl_cons, ih]
      ring_nf
    rw [List.foldl_cons, ih, hcons, List.length_cons]
    ring

/-- digitsToNat distributes over append with a place shift. -/
theorem digitsToNatAppend (xs ys : List Char) :
    digitsToNat (xs ++ ys) = digitsToNat xs * 10 ^ ys.length + digitsToNat ys := by
  unfold digitsToNat
  rw [List.foldl_append]
  exact digitsToNatFoldl ys _

/-- Rendering digits and reading them back is the identity. -/
theorem natDigitsGoToNat : ∀ fuel n : Nat, n < fuel → digitsToNat (natDigitsGo fuel n) = n := by
  intro fuel
  induction fuel with
  | zero => intro n h; omega
  | succ f ih =>
    intro n h
    unfold natDigitsGo
    split
    case isTrue h10 => simp [digitsToNat, charDigitToNat n h10]
    case isFalse h10 =>
      have hdiv : n / 10 < n := Nat.div_lt_self (by omega) (by omega)
      rw [digitsToNatAppend, ih (n / 10) (by omega)]
      have hm : (Char.ofNat (48 + n % 10)).toNat = 48 + n % 10 :=
        charDigitToNat (n % 10) (Nat.mod_lt _ (by omega))
      simp [digitsToNat, hm]
      omega

theorem natDigitsToNat (n : Nat) : digitsToNat (natDigits n) = n :=
  natDigitsGoToNat (n + 1) n (by omega)

/-- Every rendered digit character lies in the digit range. -/
theorem natDigitsGoDigits : ∀ fuel n : Nat, ∀ c ∈ natDigitsGo fuel n,
    48 ≤ c.toNat ∧ c.toNat ≤ 57 := by
  intro fuel
  induction fuel with
  | zero => intro n c hc; cases hc
  | succ f ih =>
    intro n c hc
    unfold natDigitsGo at hc
    split at hc
    case isTrue h10 =>
      rw [List.mem_singleton.mp hc, charDigitToNat n h10]
      omega
    case isFalse h10 =>
      rcases List.mem_append.mp hc with hc | hc
      · exact ih (n / 10) c hc
      · rw [List.mem_singleton.mp hc, charDigitToNat (n % 10) (Nat.mod_lt _ (by omega))]
        omega

theorem natDigitsDigits (n : Nat) : ∀ c ∈ natDigits n, 48 ≤ c.toNat ∧ c.toNat ≤ 57 :=
  natDigitsGoDigits (n + 1) n

/-- Filtering commas back out of a grouped digit list. -/
theorem commaRevFilter (keep : Char → Bool) (hkeep : keep ',' = false) (ds : List Char) :
    ∀ k : Nat, (commaRev ds k).filter keep = ds.filter keep := by
  induction ds with
  | nil => intro k; rfl
  | cons c rest ih =>
    intro k
    unfold commaRev
    split <;> simp [List.filter_cons, hkeep, ih]

/-- Stripping commas undoes en-US grouping on a comma-free list whose
characters all survive the filter. -/
theorem filterGroupDigits (keep : Char → Bool) (hkeep : keep ',' = false)
    (ds : List Char) (hds : ∀ c ∈ ds, keep c = true) :
    (groupDigits ds).filter keep = ds := by
  unfold groupDigits
  rw [List.filter_reverse, commaRevFilter keep hkeep, List.filter_reverse,
    List.reverse_reverse, List.filter_eq_self.mpr hds]

/-- dropWhile is the identity when every element fails the predicate. -/
theorem dropWhileNoop (p : Char → Bool) (l : List Char) (h : ∀ c ∈ l, p c = false) :
    l.dropWhile p = l := by
  cases l with
  | nil => rfl
  | cons c t =>
    rw [List.dropWhile_cons, if_neg]
    simp [h c (by simp)]

/-- Trim is the identity on whitespace-free lists. -/
theorem jsTrimNoop (l : List Char) (h : ∀ c ∈ l, jsSpace c = false) : jsTrim l = l := by
  unfold jsTrim
  rw [dropWhileNoop _ _ h, dropWhileNoop, List.reverse_reverse]
  intro c hc
  exact h c (List.mem_reverse.mp hc)

/-- takeWhile and dropWhile split an all-true block before a stop. -/
theorem takeDropWhileAppendStop (p : Char → Bool) (A : List Char) (c : Char) (t : List Char)
    (hA : ∀ x ∈ A, p x = true) (hc : p c = false) :
    (A ++ c :: t).takeWhile p = A ∧ (A ++ c :: t).dropWhile p = c :: t := by
  induction A with
  | nil =>
    simp only [List.nil_append, List.takeWhile_cons, List.dropWhile_cons]
    simp [hc]
  | cons a A ih =>
    have ha : p a = true := hA a (by simp)
    have ihr := ih fun x hx => hA x (by simp [hx])
    simp only [List.cons_append, List.takeWhile_cons, List.dropWhile_cons, ha]
    simp [ihr.1, ihr.2]

/-- takeWhile and dropWhile on an all-true list. -/
theorem takeDropWhileAll (p : Char → Bool) (A : List Char) (hA : ∀ x ∈ A, p x = true) :
    A.takeWhile p = A ∧ A.dropWhile p = [] := by
  induction A with
  | nil => exact ⟨rfl, rfl⟩
  | cons a A ih =>
    have ha : p a = true := hA a (by simp)
    have ihr := ih fun x hx => hA x (by simp [hx])
    simp [List.takeWhile_cons, List.dropWhile_cons, ha, ihr.1, ihr.2]

/-- The two rendered cent digits are digit characters. -/
theorem twoDigitsDigits (r : Nat) : ∀ c ∈ twoDigits r, 48 ≤ c.toNat ∧ c.toNat ≤ 57 := by
  intro c hc
  have h1 : r / 10 % 10 < 10 := Nat.mod_lt _ (by omega)
  have h2 : r % 10 < 10 := Nat.mod_lt _ (by omega)
  unfold twoDigits at hc
  simp only [List.mem_cons, List.not_mem_nil, or_false] at hc
  rcases hc with rfl | rfl
  · rw [charDigitToNat _ h1]; omega
  · rw [charDigitToNat _ h2]; omega

/-- Reading the two cent digits back. -/
theorem twoDigitsToNat (r : Nat) (h : r < 100) : digitsToNat (twoDigits r) = r := by
  have h1 : r / 10 % 10 < 10 := Nat.mod_lt _ (by omega)
  have h2 : r % 10 < 10 := Nat.mod_lt _ (by omega)
  unfold twoDigits digitsToNat
  simp only [List.foldl_cons, List.foldl_nil, charDigitToNat _ h1, charDigitToNat _ h2]
  omega

/-- A character in the digit range is a regex digit. -/
theorem jsDigitOfRange {c : Char} (h1 : 48 ≤ c.toNat) (h2 : c.toNat ≤ 57) :
    jsDigit c = true := by
  simp [jsDigit, h1, h2]

/-- Digit and dot characters are not JavaScript whitespace. -/
theorem notSpaceOfRange {c : Char} (h1 : 46 ≤ c.toNat) (h2 : c.toNat ≤ 57) :
    jsSpace c = false := by
  have e1 : c ≠ ' ' := fun he => absurd (he ▸ h1) (by decide)
  have e2 : c ≠ '\t' := fun he => absurd (he ▸ h1) (by decide)
  have e3 : c ≠ '\n' := fun he => absurd (he ▸ h1) (by decide)
  have e4 : c ≠ '\r' := fun he => absurd (he ▸ h1) (by decide)
  have e5 : c ≠ Char.ofNat 11 := fun he => absurd (he ▸ h1) (by decide)
  have e6 : c ≠ Char.ofNat 12 := fun he => absurd (he ▸ h1) (by decide)
  have e7 : c ≠ Char.ofNat 160 := fun he => absurd (he ▸ h2) (by decide)
  simp [jsSpace, e1, e2, e3, e4, e5, e6, e7]

/-- A character in the digit range survives the dollars-and-commas filter. -/
theorem keepOfDigitRange {c : Char} (h : 48 ≤ c.toNat) :
    (!(c == '$' || c == ',')) = true := by
  have h1 : c ≠ '$' := fun he => absurd (he ▸ h) (by decide)
  have h2 : c ≠ ',' := fun he => absurd (he ▸ h) (by decide)
  simp [h1, h2]

/-- The digit rendering is never empty. -/
theorem natDigitsNe (n : Nat) : natDigits n ≠ [] := by
  unfold natDigits natDigitsGo
  split <;> simp

/-- Parsing an all-digit block, a dot, and an all-digit fraction. -/
theorem jsParseFloatDigits (A B : List Char)
    (hA : ∀ x ∈ A, 48 ≤ x.toNat ∧ x.toNat ≤ 57)
    (hB : ∀ x ∈ B, 48 ≤ x.toNat ∧ x.toNat ≤ 57) (hne : A ≠ []) :
    jsParseFloat (A ++ '.' :: B) =
      some (mkRat (digitsToNat (A ++ B) : ℤ) 1 / (10 : ℚ) ^ B.length) := by
  have hnsp : ∀ x ∈ A ++ '.' :: B, jsSpace x = false := by
    intro x hx
    rcases List.mem_append.mp hx with hx | hx
    · exact notSpaceOfRange (by have := (hA x hx).1; omega) (hA x hx).2
    · rcases List.mem_cons.mp hx with rfl | hx
      · exact notSpaceOfRange (by decide) (by decide)
      · exact notSpaceOfRange (by have := (hB x hx).1; omega) (hB x hx).2
  have htake := takeDropWhileAppendStop jsDigit A '.' B
    (fun x hx => jsDigitOfRange (hA x hx).1 (hA x hx).2) (by decide)
  have htakeB := takeDropWhileAll jsDigit B
    fun x hx => jsDigitOfRange (hB x hx).1 (hB x hx).2
  rcases hAeq : A with _ | ⟨c0, t0⟩
  · exact absurd hAeq hne
  · subst hAeq
    have hc0 := hA c0 (by simp)
    have hm : (c0 == '-') = false := by
      have : c0 ≠ '-' := fun he => absurd (he ▸ hc0.1) (by decide)
      simp [this]
    have hp : (c0 == '+') = false := by
      have : c0 ≠ '+' := fun he => absurd (he ▸ hc0.1) (by decide)
      simp [this]
    unfold jsParseFloat
    rw [dropWhileNoop _ _ hnsp]
    simp only [List.cons_append, hm, hp, Bool.false_eq_true, if_false]
    rw [← List.cons_append]
    rw [htake.1, htake.2]
    simp only [List.takeWhile_cons_of_neg (by decide : ¬jsDigit '.' = true)]
    simp only [show ('.' == '.') = true from rfl, if_pos]
    rw [htakeB.1, htakeB.2]
    have hAne : ((c0 :: t0).isEmpty && B.isEmpty) = false := by simp
    simp only [hAne, Bool.false_eq_true, if_false]
    simp [zpow_zero]

/-- Parsing the canonical digits-dot-two-digits rendering of a cent
count. -/
theorem jsParseFloatCanonical (cents : Nat) :
    jsParseFloat (natDigits (cents / 100) ++ '.' :: twoDigits (cents % 100)) =
      some ((cents : ℚ) / 100) := by
  rw [jsParseFloatDigits _ _ (natDigitsDigits _) (twoDigitsDigits _) (natDigitsNe _)]
  have hlen : (twoDigits (cents % 100)).length = 2 := rfl
  rw [digitsToNatAppend, hlen, natDigitsToNat, twoDigitsToNat _ (Nat.mod_lt _ (by omega))]
  have harith : cents / 100 * 10 ^ 2 + cents % 100 = cents := by omega
  rw [harith]
  congr 1
  rw [Rat.mkRat_one]
  norm_num

/-- parseMoney reads the rendered positive currency text back as the
cent count over one hundred. -/
theorem parseMoneyRendered (cents : Nat) :
    parseMoney ('$' :: (groupDigits (natDigits (cents / 100)) ++
      '.' :: twoDigits (cents % 100))) = (cents : ℚ) / 100 := by
  have hkeepDigits : ∀ c ∈ natDigits (cents / 100), (!(c == '$' || c == ',')) = true :=
    fun c hc => keepOfDigitRange (natDigitsDigits _ c hc).1
  have hfil : ('$' :: (groupDigits (natDigits (cents / 100)) ++
      '.' :: twoDigits (cents % 100))).filter (fun c => !(c == '$' || c == ',')) =
      natDigits (cents / 100) ++ '.' :: twoDigits (cents % 100) := by
    rw [List.filter_cons]
    simp only [show (!('$' == '$' || '$' == ',')) = true ↔ False by decide, if_neg, if_false]
    rw [List.filter_append, filterGroupDigits _ (by decide) _ hkeepDigits, List.filter_cons]
    simp only [show (!('.' == '$' || '.' == ',')) = true from rfl, if_pos]
    rw [List.filter_eq_self.mpr fun c hc => keepOfDigitRange (twoDigitsDigits _ c hc).1]
  unfold parseMoney
  rw [hfil, jsTrimNoop]
  · simp only [jsParseFloatCanonical]
  intro c hc
  rcases List.mem_append.mp hc with hc | hc
  · exact notSpaceOfRange (by have := (natDigitsDigits _ c hc).1; omega)
      (natDigitsDigits _ c hc).2
  · rcases List.mem_cons.mp hc with rfl | hc
    · exact notSpaceOfRange (by decide) (by decide)
    · exact notSpaceOfRange (by have := (twoDigitsDigits _ c hc).1; omega)
        (twoDigitsDigits _ c hc).2

/-- fmtMoneyPos renders an exact cent count canonically. -/
theorem fmtMoneyPosCents (cents : Nat) :
    fmtMoneyPos ((cents : ℚ) / 100) =
      '$' :: (groupDigits (natDigits (cents / 100)) ++ '.' :: twoDigits (cents % 100)) := by
  unfold fmtMoneyPos
  have h1 : ((cents : ℚ) / 100) * 100 + 1 / 2 = ((cents : ℤ) : ℚ) + 1 / 2 := by
    push_cast
    field_simp
  have h2 : Int.floor (((cents : ℤ) : ℚ) + 1 / 2) = (cents : ℤ) := by
    rw [Int.floor_int_add]
    have : Int.floor ((1 : ℚ) / 2) = 0 := by
      rw [Int.floor_eq_zero_iff]
      constructor <;> norm_num
    omega
  rw [h1, h2]
  simp

/-- Claim C7, amended (corrected).  The parse-format-parse round trip is
the identity exactly on the parses that fit two-decimal currency text:
for every money string whose parsed value is nonnegative and is a whole
number of cents, re-formatting and re-parsing returns the same value.
For finer-grained parses the formatter rounds to a cent, so the round
trip loses precision (see the counterexample). -/
theorem c7RoundTripTwoDecimal (s : List Char) (v : ℚ)
    (_hv : parseMoney s = v) (hpos : 0 ≤ v) (hden : (v * 100).den = 1) :
    parseMoney (fmtMoney v) = v := by
  have hnum : ((v * 100).num : ℚ) = v * 100 := (Rat.den_eq_one_iff _).mp hden
  have hnn : 0 ≤ (v * 100).num := Rat.num_nonneg.mpr (by positivity)
  have hv100 : (((v * 100).num.toNat : ℤ) : ℚ) = v * 100 := by
    rw [Int.toNat_of_nonneg hnn]
    exact hnum
  have hveq : v = (((v * 100).num.toNat : ℕ) : ℚ) / 100 := by
    rw [eq_div_iff (by norm_num : (100 : ℚ) ≠ 0)]
    push_cast at hv100 ⊢
    linarith
  rw [hveq]
  unfold fmtMoney
  rw [if_neg (by rw [← hveq]; exact not_lt.mpr hpos), fmtMoneyPosCents, parseMoneyRendered]

/-- Witness for C7: the round trip on a thousands-grouped money string. -/
theorem c7RoundTripTwoDecimalWitness :
    parseMoney (fmtMoney (parseMoney "$1,234.56".data)) = parseMoney "$1,234.56".data :=
  c7RoundTripTwoDecimal "$1,234.56".data (parseMoney "$1,234.56".data) rfl
    (by decide!) (by decide!)

/-- Counterexample to claim C7 as stated: the string "1.234" parses to
1.234, which formats to the rounded text and re-parses to 1.23, not
1.234. -/
theorem c7Counterexample :
    parseMoney (fmtMoney (parseMoney "1.234".data)) ≠ parseMoney "1.234".data ∧
    parseMoney "1.234".data = 617 / 500 ∧
    parseMoney (fmtMoney (parseMoney "1.234".data)) = 123 / 100 :=
  ⟨by decide!, by decide!, by decide!⟩

/-! ## Claim C8 -/

/-- Claim C8 (confirmed).  Both line-item extractors try their
segmentation strategies in a fixed order and return the items of the
first strategy that produces at least one item; once a strategy has
produced an item, no later strategy contributes anything. -/
theorem c8FirstStrategyWins (text : List Char) :
    (InvoiceParser.pattern1Items text ≠ [] →
      InvoiceParser.extractLineItems text = InvoiceParser.pattern1Items text) ∧
    (InvoiceParser.pattern1Items text = [] → InvoiceParser.pattern2Items text ≠ [] →
      InvoiceParser.extractLineItems text = InvoiceParser.pattern2Items text) ∧
    (InvoiceParser.pattern1Items text = [] → InvoiceParser.pattern2Items text = [] →
      InvoiceParser.extractLineItems text = InvoiceParser.pattern3Items text) ∧
    (EnhancedInvoiceParser.extractTableFormat text ≠ [] →
      EnhancedInvoiceParser.extractLineItems text =
        EnhancedInvoiceParser.extractTableFormat text) ∧
    (EnhancedInvoiceParser.extractTableFormat text = [] →
      EnhancedInvoiceParser.extractDescriptionFirst (splitNL text) ≠ [] →
      EnhancedInvoiceParser.extractLineItems text =
        EnhancedInvoiceParser.extractDescriptionFirst (splitNL text)) ∧
    (EnhancedInvoiceParser.extractTableFormat text = [] →
      EnhancedInvoiceParser.extractDescriptionFirst (splitNL text) = [] →
      EnhancedInvoiceParser.extractLineItems text =
        EnhancedInvoiceParser.extractLineByLine (splitNL text)) := by
  refine ⟨fun h1 => ?_, fun h1 h2 => ?_, fun h1 h2 => ?_,
    fun h1 => ?_, fun h1 h2 => ?_, fun h1 h2 => ?_⟩ <;>
    simp_all [InvoiceParser.extractLineItems, EnhancedInvoiceParser.extractLineItems,
      List.isEmpty_iff]

/-- Witness for C8: concrete documents exercising each strategy slot of
both extractors. -/
theorem c8FirstStrategyWinsWitness :
    InvoiceParser.extractLineItems docMaterial = InvoiceParser.pattern1Items docMaterial ∧
    InvoiceParser.extractLineItems docBadItem = InvoiceParser.pattern2Items docBadItem ∧
    InvoiceParser.extractLineItems docNoTotal = InvoiceParser.pattern3Items docNoTotal ∧
    EnhancedInvoiceParser.extractLineItems docTable =
      EnhancedInvoiceParser.extractTableFormat docTable ∧
    EnhancedInvoiceParser.extractLineItems docDescFirst =
      EnhancedInvoiceParser.extractDescriptionFirst (splitNL docDescFirst) ∧
    EnhancedInvoiceParser.extractLineItems docEmptyish =
      EnhancedInvoiceParser.extractLineByLine (splitNL docEmptyish) :=
  ⟨(c8FirstStrategyWins docMaterial).1 (by decide!),
   (c8FirstStrategyWins docBadItem).2.1 (by decide!) (by decide!),
   (c8FirstStrategyWins docNoTotal).2.2.1 (by decide!) (by decide!),
   (c8FirstStrategyWins docTable).2.2.2.1 (by decide!),
   (c8FirstStrategyWins docDescFirst).2.2.2.2.1 (by decide!) (by decide!),
   (c8FirstStrategyWins docEmptyish).2.2.2.2.2 (by decide!) (by decide!)⟩

/-! ## Claim C2 -/

/-- Claim C2, amended (corrected).  Only the enhanced-parser
table-format strategy validates candidates: every line item it produces
satisfies the claimed tolerance bound.  The other strategies of the
enhanced parser and all of InvoiceParser.extractLineItems push
candidates without tolerance validation (see the counterexample). -/
theorem c2TableStrategyTolerance (text : List Char) (it : LineItem)
    (h : it ∈ EnhancedInvoiceParser.extractTableFormat text) :
    |it.quantity * it.unitPrice - it.amount| ≤
      max (it.quantity * it.unitPrice * (1 / 10)) 1 := by
  rcases List.mem_filterMap.mp h with ⟨m, -, hm⟩
  dsimp only at hm
  split at hm
  case isTrue hv =>
    injection hm with hm
    subst hm
    unfold EnhancedInvoiceParser.isValidLineItem at hv
    split_ifs at hv
    exact of_decide_eq_true hv
  case isFalse => cases hm

/-- Witness for C2: the validated table-format item of docTable. -/
theorem c2TableStrategyToleranceWitness :
    |(⟨10, "RJ-331300 WIDGET PLUS".data, 66, 660⟩ : LineItem).quantity *
        (⟨10, "RJ-331300 WIDGET PLUS".data, 66, 660⟩ : LineItem).unitPrice -
        (⟨10, "RJ-331300 WIDGET PLUS".data, 66, 660⟩ : LineItem).amount| ≤
      max ((⟨10, "RJ-331300 WIDGET PLUS".data, 66, 660⟩ : LineItem).quantity *
        (⟨10, "RJ-331300 WIDGET PLUS".data, 66, 660⟩ : LineItem).unitPrice * (1 / 10)) 1 :=
  c2TableStrategyTolerance docTable _ (by decide!)

/-- Counterexample to claim C2 as stated: InvoiceParser.extractLineItems
performs no tolerance validation, and on docBadItem its output contains
an item with quantity 2, unit price 10 and amount 50, violating the
claimed bound (the difference 30 exceeds max(2, 1)). -/
theorem c2Counterexample :
    (⟨2, "WIDGETASSEMBLY".data, 10, 50⟩ : LineItem) ∈
      InvoiceParser.extractLineItems docBadItem ∧
    ¬(|(2 : ℚ) * 10 - 50| ≤ max ((2 : ℚ) * 10 * (1 / 10)) 1) :=
  ⟨by decide!, by decide!⟩

/-! ## Claim C10 -/

/-- Dropping a failed prefix twice is the same as dropping it once. -/
theorem dropWhileIdem (p : Char → Bool) (l : List Char) :
    (l.dropWhile p).dropWhile p = l.dropWhile p := by
  induction l with
  | nil => rfl
  | cons c rest ih =>
    rw [List.dropWhile_cons]
    split
    · exact ih
    · rw [List.dropWhile_cons]
      simp_all

/-- The head surviving dropWhile fails the predicate. -/
theorem dropWhileHeadFalse {p : Char → Bool} {l : List Char} {c : Char} {rest : List Char}
    (h : l.dropWhile p = c :: rest) : p c = false := by
  induction l with
  | nil => cases h
  | cons a t ih =>
    rw [List.dropWhile_cons] at h
    split at h
    · exact ih h
    · cases h
      simp_all

/-- JavaScript trim is idempotent. -/
theorem jsTrimIdem (l : List Char) : jsTrim (jsTrim l) = jsTrim l := by
  unfold jsTrim
  have hpre : ((l.dropWhile jsSpace).reverse.dropWhile jsSpace).reverse <+:
      l.dropWhile jsSpace := by
    have hs : (l.dropWhile jsSpace).reverse.dropWhile jsSpace <:+
        (l.dropWhile jsSpace).reverse := List.dropWhile_suffix jsSpace
    have h2 := List.reverse_prefix.mpr hs
    rwa [List.reverse_reverse] at h2
  have h1 : (((l.dropWhile jsSpace).reverse.dropWhile jsSpace).reverse).dropWhile jsSpace =
      ((l.dropWhile jsSpace).reverse.dropWhile jsSpace).reverse := by
    cases hBR : ((l.dropWhile jsSpace).reverse.dropWhile jsSpace).reverse with
    | nil => rfl
    | cons c r =>
      rw [hBR] at hpre
      rcases hpre with ⟨t, ht⟩
      have hc : jsSpace c = false := dropWhileHeadFalse (l := l) ht.symm
      rw [List.dropWhile_cons]
      simp_all
  rw [h1, List.reverse_reverse, dropWhileIdem]

/-- Every comment candidate is already trimmed. -/
theorem commentCandidatesTrimmed (text : List Char) :
    ∀ c ∈ InvoiceParser.commentCandidates text, jsTrim c = c := by
  intro c hc
  unfold InvoiceParser.commentCandidates at hc
  simp only [List.mem_flatten, List.mem_map] at hc
  rcases hc with ⟨l, ⟨re, -, rfl⟩, hcl⟩
  rcases List.mem_map.mp hcl with ⟨m, -, rfl⟩
  exact jsTrimIdem _

/-- The accumulation step of extractComments preserves distinctness,
trimmedness and the length bound. -/
theorem commentsFoldInvariant (cands : List (List Char)) :
    ∀ acc : List (List Char), acc.Nodup → (∀ c ∈ acc, jsTrim c = c ∧ 10 < c.length) →
    (∀ c ∈ cands, jsTrim c = c) →
    ((cands.foldl
        (fun acc c => if decide (10 < c.length) && !acc.contains c then acc ++ [c] else acc)
        acc).Nodup ∧
      ∀ c ∈ cands.foldl
        (fun acc c => if decide (10 < c.length) && !acc.contains c then acc ++ [c] else acc)
        acc, jsTrim c = c ∧ 10 < c.length) := by
  induction cands with
  | nil => intro acc h1 h2 _; exact ⟨h1, h2⟩
  | cons c rest ih =>
    intro acc h1 h2 h3
    simp only [List.foldl_cons]
    by_cases hc : (decide (10 < c.length) && !acc.contains c) = true
    · rw [if_pos hc]
      have hc2 : decide (10 < c.length) = true ∧ (!acc.contains c) = true := by simpa using hc
      rcases hc2 with ⟨hlen, hnc⟩
      have hmem : c ∉ acc := by
        simpa using hnc
      refine ih (acc ++ [c]) ?_ ?_ fun x hx => h3 x (by simp [hx])
      · simp [List.nodup_append, h1, hmem]
      · intro x hx
        rcases List.mem_append.mp hx with hx | hx
        · exact h2 x hx
        · rw [List.mem_singleton.mp hx]
          exact ⟨h3 c (by simp), by simpa using hlen⟩
    · rw [if_neg hc]
      exact ih acc h1 h2 fun x hx => h3 x (by simp [hx])

/-- Claim C10 (confirmed).  The comments list of extractComments has no
duplicate strings, and every element is a trimmed string of length
greater than 10. -/
theorem c10CommentsInvariant (text : List Char) :
    (InvoiceParser.extractComments text).Nodup ∧
    ∀ c ∈ InvoiceParser.extractComments text, jsTrim c = c ∧ 10 < c.length := by
  unfold InvoiceParser.extractComments
  exact commentsFoldInvariant _ [] List.nodup_nil (by simp) (commentCandidatesTrimmed text)

/-- Witness for C10: the NOTE comment of docComment is trimmed and
longer than 10 characters. -/
theorem c10CommentsInvariantWitness :
    jsTrim "NOTE: ship to rear dock after five pm".data =
      "NOTE: ship to rear dock after five pm".data ∧
    10 < "NOTE: ship to rear dock after five pm".data.length :=
  (c10CommentsInvariant docComment).2 _ (by decide!)

/-- Witness for C9: the item extracted from the no-total document. -/
theorem c9FallbackUnitItemsWitness :
    (⟨1, "Widget assembly unit ABC".data, 2469 / 20, 2469 / 20⟩ : LineItem).quantity = 1 ∧
    (⟨1, "Widget assembly unit ABC".data, 2469 / 20, 2469 / 20⟩ : LineItem).unitPrice =
      (⟨1, "Widget assembly unit ABC".data, 2469 / 20, 2469 / 20⟩ : LineItem).amount ∧
    (⟨1, "Widget assembly unit ABC".data, 2469 / 20, 2469 / 20⟩ : LineItem).quantity *
      (⟨1, "Widget assembly unit ABC".data, 2469 / 20, 2469 / 20⟩ : LineItem).unitPrice =
      (⟨1, "Widget assembly unit ABC".data, 2469 / 20, 2469 / 20⟩ : LineItem).amount :=
  c9FallbackUnitItems docNoTotal _ (by decide!)

end RemitSpec
